import Mathlib

/-! Verification development for `example/opencv_demo.cc`.

The program is a single `main`: option parsing, camera and tag-family set-up,
a capture/detect/annotate loop that ends on the `q` key, and tear-down.
The embedding has two layers.

* The *post-processor* (lines 175-194 of the source): the three Euler angles
  and the relative camera position, as functions of the pose returned by
  `estimate_tag_pose`.  They are generic in the number type and in the two
  `libm` functions they call, so they evaluate on rationals and are reasoned
  about on reals.
* The *control flow* of `main`: an explicit trace of the library calls the
  program performs, together with its exit code.  The unbounded `while (true)`
  loop is driven by a fuel counter; `none` means the loop has not ended yet.
-/

namespace OpencvDemo

/-! ## Post-processor -/

/-- The pose written by `estimate_tag_pose`: `R` is `pose.R->data` (nine
entries, row-major) and `t` is `pose.t->data` (three entries). -/
structure Pose (α : Type) where
  R : Fin 9 → α
  t : Fin 3 → α

/-- Row-major addressing of a 3x3 `matd_t`: `R[r,c] = data[3*r+c]`. -/
def idx (r c : Fin 3) : Fin 9 := ⟨3 * r.val + c.val, by omega⟩

/-- Entry `R[r,c]` of the rotation of a pose. -/
def Pose.entry {α : Type} (pose : Pose α) (r c : Fin 3) : α := pose.R (idx r c)

/-- Lines 178-187: the Eigen matrix filled from `pose.R->data`. -/
def matrix {α : Type} (pose : Pose α) : Matrix (Fin 3) (Fin 3) α :=
  !![pose.R 0, pose.R 3, pose.R 6;
     pose.R 1, pose.R 4, pose.R 7;
     pose.R 2, pose.R 5, pose.R 8]

/-- Lines 189-192: the Eigen vector filled from the negated `pose.t->data`. -/
def vector {α : Type} [Neg α] (pose : Pose α) : Fin 3 → α :=
  ![-pose.t 0, -pose.t 1, -pose.t 2]

/-- Line 193: `result = matrix * vector`. -/
def result {α : Type} [Ring α] (pose : Pose α) : Fin 3 → α :=
  Matrix.mulVec (matrix pose) (vector pose)

/-- Line 175: `atan2(R[7], R[8]) / 3.1415926 * 180`. -/
def theta_x {α : Type} [DivisionRing α] (atan2 : α → α → α) (pose : Pose α) : α :=
  atan2 (pose.R 7) (pose.R 8) / 3.1415926 * 180

/-- Line 176: `atan2(-R[6], sqrt(pow(R[7],2) + pow(R[8],2))) / 3.1415926 * 180`. -/
def theta_y {α : Type} [DivisionRing α] (atan2 : α → α → α) (sqrt : α → α)
    (pose : Pose α) : α :=
  atan2 (-pose.R 6) (sqrt (pose.R 7 ^ 2 + pose.R 8 ^ 2)) / 3.1415926 * 180

/-- Line 177: `atan2(R[3], R[0]) / 3.1415926 * 180`. -/
def theta_z {α : Type} [DivisionRing α] (atan2 : α → α → α) (pose : Pose α) : α :=
  atan2 (pose.R 3) (pose.R 0) / 3.1415926 * 180

/-- The nine `data` entries of a 3x3 `matd_t`, listed in storage order. -/
def matd9 {α : Type} (a0 a1 a2 a3 a4 a5 a6 a7 a8 : α) : Fin 9 → α
  | 0 => a0
  | 1 => a1
  | 2 => a2
  | 3 => a3
  | 4 => a4
  | 5 => a5
  | 6 => a6
  | 7 => a7
  | 8 => a8

/-- The pose with identity rotation and translation `(0,0,1)`. -/
def identityPose (α : Type) [Zero α] [One α] : Pose α where
  R := matd9 1 0 0 0 1 0 0 0 1
  t := ![0, 0, 1]

/-- A quarter turn about the optical axis with translation `(1,2,3)`. -/
def quarterTurnPose (α : Type) [Ring α] : Pose α where
  R := matd9 0 (-1) 0 1 0 0 0 0 1
  t := ![1, 2, 3]

/-- The `libm` function `atan2` on real arguments: the angle in `(-π, π]` of
the point `(x, y)`, and `0` at the origin. -/
noncomputable def atan2 (y x : ℝ) : ℝ := Complex.arg ⟨x, y⟩

/-- Rotation about the z axis, from the cosine and sine of the angle. -/
def rotZ {α : Type} [Ring α] (c s : α) : Matrix (Fin 3) (Fin 3) α :=
  !![c, -s, 0; s, c, 0; 0, 0, 1]

/-- Rotation about the y axis, from the cosine and sine of the angle. -/
def rotY {α : Type} [Ring α] (c s : α) : Matrix (Fin 3) (Fin 3) α :=
  !![c, 0, s; 0, 1, 0; -s, 0, c]

/-- Rotation about the x axis, from the cosine and sine of the angle. -/
def rotX {α : Type} [Ring α] (c s : α) : Matrix (Fin 3) (Fin 3) α :=
  !![1, 0, 0; 0, c, -s; 0, s, c]

/-- Row-major storage of a 3x3 matrix. -/
def rowMajor {α : Type} (M : Matrix (Fin 3) (Fin 3) α) : Fin 9 → α :=
  matd9 (M 0 0) (M 0 1) (M 0 2) (M 1 0) (M 1 1) (M 1 2) (M 2 0) (M 2 1) (M 2 2)

/-- The synthetic pose of the round-trip property, following the wording of the
specification: `R = Rz(yaw) * Ry(pitch) * Rx(roll)` for angles given in degrees,
stored row-major, with translation `t`. -/
noncomputable def eulerPose (yaw pitch roll : ℝ) (t : Fin 3 → ℝ) : Pose ℝ where
  R := rowMajor
    (rotZ (Real.cos (yaw * Real.pi / 180)) (Real.sin (yaw * Real.pi / 180)) *
      rotY (Real.cos (pitch * Real.pi / 180)) (Real.sin (pitch * Real.pi / 180)) *
      rotX (Real.cos (roll * Real.pi / 180)) (Real.sin (roll * Real.pi / 180)))
  t := t

/-! ## Control flow of `main` -/

/-- The tag families for which the program has a create/destroy pair. -/
inductive Family
  | tag36h11
  | tag25h9
  | tag16h5
  | tagCircle21h7
  | tagStandard41h12
  deriving DecidableEq, Repr

/-- Character-by-character comparison behind `strcmp`: the sign of the first
difference, a proper prefix being smaller. -/
def strcmpChars : List Char → List Char → Int
  | [], [] => 0
  | [], _ :: _ => -1
  | _ :: _, [] => 1
  | a :: as, b :: bs =>
    if a = b then strcmpChars as bs else if a.toNat < b.toNat then -1 else 1

/-- The `libc` function `strcmp`, up to the magnitude of a nonzero result:
zero when the strings agree, negative or positive at the first difference. -/
def strcmp (a b : String) : Int := strcmpChars a.data b.data

/-- An integer pixel position, `cv::Point`. -/
structure Point where
  x : Int
  y : Int
  deriving DecidableEq, Repr

/-- A colour, `cv::Scalar(v0, v1, v2)`. -/
structure Scalar where
  v0 : Nat
  v1 : Nat
  v2 : Nat
  deriving DecidableEq, Repr

/-- The fields of `apriltag_detection_t` that the program reads: the
identifier, the centre `c[2]` and the corners `p[4][2]`. -/
structure Detection (α : Type) where
  id : Int
  c : Fin 2 → α
  p : Fin 4 → Fin 2 → α

/-- The fields of `apriltag_detection_info_t` set at lines 146-150. -/
structure Info (α : Type) where
  tagsize : α
  fx : α
  fy : α
  cx : α
  cy : α

/-- Lines 146-150: the constant camera intrinsics and tag size. -/
def info (α : Type) [DivisionRing α] : Info α where
  tagsize := 0.135
  fx := 1952.992318829338
  fy := 1951.357135681735
  cx := 539.6076735381756
  cy := 276.4885069533516

/-- Everything `main` obtains from outside: the outcome of option parsing,
the camera, the detector, the pose estimator, the keys returned by `waitKey`,
and the library functions on numbers and text that it calls. -/
structure Env (α : Type) where
  /-- The result of `getopt_parse` (line 95). -/
  getopt_parse : Bool
  /-- The value of `getopt_get_bool(getopt, "help")` (line 96). -/
  help : Bool
  /-- The value of `getopt_get_string(getopt, "family")` (line 111). -/
  famname : String
  /-- The value of `cap.isOpened()` after `VideoCapture cap(0)` (line 104). -/
  isOpened : Bool
  /-- The detections `apriltag_detector_detect` returns on the frame of a
  given iteration (line 161). -/
  apriltag_detector_detect : Nat → List (Detection α)
  /-- The pose `estimate_tag_pose` writes for a detection (line 170). -/
  estimate_tag_pose : Info α → Detection α → Pose α
  /-- The value `waitKey(30)` returns in a given iteration (line 226). -/
  waitKey : Nat → Int
  /-- The `libm` function `atan2`. -/
  atan2 : α → α → α
  /-- The `libm` function `sqrt`. -/
  sqrt : α → α
  /-- The conversion from `double` to `int` applied to `cv::Point` arguments. -/
  toInt : α → Int
  /-- The width and height that `getTextSize` returns for a text (line 216). -/
  getTextSize : String → Int × Int

/-- The library calls and console outputs of `main` that the trace records. -/
inductive Call (α : Type)
  /-- Call of `getopt_create` and the option declarations (lines 86-94). -/
  | getoptCreate
  /-- The usage text (lines 98-99). -/
  | usage
  /-- Construction `VideoCapture cap(0)` (line 103). -/
  | videoCapture
  /-- The message "Couldn't open video capture device" (line 106). -/
  | captureError
  /-- One of the five `*_create` functions (lines 112-131). -/
  | familyCreate (f : Family)
  /-- The message "Unrecognized tag family name. ..." (line 134). -/
  | unrecognizedFamily
  /-- Call of `apriltag_detector_create` (line 137). -/
  | detectorCreate
  /-- Call of `apriltag_detector_add_family` (line 138). -/
  | addFamily (f : Family)
  /-- The detector options copied from the command line (lines 139-143). -/
  | configure
  /-- Acquisition `cap >> frame` (line 154). -/
  | read (frame : Nat)
  /-- Call of `cvtColor` (line 155). -/
  | cvtColor (frame : Nat)
  /-- Call of `apriltag_detector_detect` (line 161). -/
  | detect (frame : Nat)
  /-- The line "n tags detected" (line 162). -/
  | printCount (n : Nat)
  /-- Call of `estimate_tag_pose` (line 170). -/
  | estimatePose (info : Info α) (det : Detection α)
  /-- The output of `T` and `R` (lines 171-174). -/
  | printPose (pose : Pose α)
  /-- The output of `result` (line 194). -/
  | printResult (r : Fin 3 → α)
  /-- The output of the three angles (line 197). -/
  | printTheta (x y z : α)
  /-- Call `line(frame, a, b, color, 2)` (lines 198-209). -/
  | line (a b : Point) (color : Scalar)
  /-- Call `putText(frame, text, org, ...)` (lines 218-219). -/
  | putText (text : String) (org : Point)
  /-- Call `zarray_destroy(detections)` (line 221). -/
  | zarrayDestroy
  /-- Call of `imshow` (line 222). -/
  | imshow (frame : Nat)
  /-- The line "Time spent: ..." (line 225). -/
  | printTime
  /-- Call `waitKey(30)` (line 226). -/
  | waitKey
  /-- Call of `apriltag_detector_destroy` (line 233). -/
  | detectorDestroy
  /-- One of the five `*_destroy` functions (lines 234-253). -/
  | familyDestroy (f : Family)
  /-- Call of `getopt_destroy` (line 254). -/
  | getoptDestroy

/-- How a run of `main` ends: the exit code and the calls made, in order. -/
structure Outcome (α : Type) where
  code : Int
  calls : List (Call α)

/-- Lines 112-136: the family whose `*_create` function is called for a name,
or `none` when the final `else` branch is taken. -/
def createFamily (famname : String) : Option Family :=
  if strcmp famname "tag36h11" = 0 then some Family.tag36h11
  else if strcmp famname "tag25h9" = 0 then some Family.tag25h9
  else if strcmp famname "tag16h5" = 0 then some Family.tag16h5
  else if strcmp famname "tagCircle21h7" = 0 then some Family.tagCircle21h7
  else if strcmp famname "tagStandard41h12" = 0 then some Family.tagStandard41h12
  else none

/-- Lines 234-253: the family whose `*_destroy` function is called for a name,
or `none` when no branch is taken (the chain has no final `else`). -/
def destroyFamily (famname : String) : Option Family :=
  if strcmp famname "tag36h11" = 0 then some Family.tag36h11
  else if strcmp famname "tag25h9" = 0 then some Family.tag25h9
  else if strcmp famname "tag16h5" = 0 then some Family.tag16h5
  else if strcmp famname "tagCircle21h7" = 0 then some Family.tagCircle21h7
  else if strcmp famname "tagStandard41h12" = 0 then some Family.tagStandard41h12
  else none

/-- The pixel position `Point(det->p[k][0], det->p[k][1])` of corner `k`. -/
def corner {α : Type} (env : Env α) (det : Detection α) (k : Fin 4) : Point :=
  ⟨env.toInt (det.p k 0), env.toInt (det.p k 1)⟩

/-- Lines 198-209: the four `line` calls, as the pair of corner indices each
one joins and its colour, in program order. -/
def outline : List (Fin 4 × Fin 4 × Scalar) :=
  [(0, 1, ⟨0, 0xff, 0⟩), (0, 3, ⟨0, 0, 0xff⟩), (1, 2, ⟨0xff, 0, 0⟩), (2, 3, ⟨0xff, 0, 0⟩)]

/-- Lines 210-219: the identifier label, placed around the centre. -/
def label {α : Type} [DivisionRing α] (env : Env α) (det : Detection α) : Call α :=
  let text := toString det.id
  let textsize := env.getTextSize text
  Call.putText text
    ⟨env.toInt (det.c 0 - ((Int.tdiv textsize.1 2 : Int) : α)),
     env.toInt (det.c 1 + ((Int.tdiv textsize.2 2 : Int) : α))⟩

/-- Lines 165-219: the body of the `for` loop for one detection. -/
def annotate {α : Type} [DivisionRing α] (env : Env α) (det : Detection α) : List (Call α) :=
  let pose := env.estimate_tag_pose (info α) det
  [Call.estimatePose (info α) det,
   Call.printPose pose,
   Call.printResult (result pose),
   Call.printTheta (theta_x env.atan2 pose) (theta_y env.atan2 env.sqrt pose)
     (theta_z env.atan2 pose)]
  ++ outline.map (fun e => Call.line (corner env det e.1) (corner env det e.2.1) e.2.2)
  ++ [label env det]

/-- Lines 153-226: one pass through the body of `while (true)`, up to and
including the call of `waitKey`. -/
def iteration {α : Type} [DivisionRing α] (env : Env α) (i : Nat) : List (Call α) :=
  let detections := env.apriltag_detector_detect i
  [Call.read i, Call.cvtColor i, Call.detect i, Call.printCount detections.length]
  ++ detections.flatMap (annotate env)
  ++ [Call.zarrayDestroy, Call.imshow i, Call.printTime, Call.waitKey]

/-- Lines 151-232: the `while (true)` loop from iteration `i` on.  The loop is
left only through `break` when `waitKey` returns the code of `q`; `none` means
that the fuel ran out before that. -/
def loop {α : Type} [DivisionRing α] (env : Env α) : Nat → Nat → Option (List (Call α))
  | 0, _ => none
  | fuel + 1, i =>
    if env.waitKey i = (Char.toNat 'q' : Int) then some (iteration env i)
    else (loop env fuel (i + 1)).map (fun rest => iteration env i ++ rest)

/-- Lines 233-254: tear-down after the loop. -/
def shutdown {α : Type} (env : Env α) : List (Call α) :=
  [Call.detectorDestroy]
  ++ (match destroyFamily env.famname with
      | some f => [Call.familyDestroy f]
      | none => [])
  ++ [Call.getoptDestroy]

/-- The program `main` (lines 84-256). -/
def main {α : Type} [DivisionRing α] (env : Env α) (fuel : Nat) : Option (Outcome α) :=
  if !env.getopt_parse || env.help then
    some ⟨0, [Call.getoptCreate, Call.usage]⟩
  else if !env.isOpened then
    some ⟨-1, [Call.getoptCreate, Call.videoCapture, Call.captureError]⟩
  else
    match createFamily env.famname with
    | none => some ⟨-1, [Call.getoptCreate, Call.videoCapture, Call.unrecognizedFamily]⟩
    | some tf =>
      match loop env fuel 0 with
      | none => none
      | some body =>
        some ⟨0, [Call.getoptCreate, Call.videoCapture, Call.familyCreate tf,
                  Call.detectorCreate, Call.addFamily tf, Call.configure]
                 ++ body ++ shutdown env⟩

/-! ### Observations on traces -/

/-- The frame-source open. -/
def Call.isVideoCapture {α : Type} : Call α → Bool
  | Call.videoCapture => true
  | _ => false

/-- The unrecognized-family message. -/
def Call.isUnrecognizedFamily {α : Type} : Call α → Bool
  | Call.unrecognizedFamily => true
  | _ => false

/-- The family a call creates, if it is a `*_create` call. -/
def Call.created {α : Type} : Call α → Option Family
  | Call.familyCreate f => some f
  | _ => none

/-- The family a call destroys, if it is a `*_destroy` call. -/
def Call.destroyed {α : Type} : Call α → Option Family
  | Call.familyDestroy f => some f
  | _ => none

/-- The frame a call acquires, if it is `cap >> frame`. -/
def Call.acquired {α : Type} : Call α → Option Nat
  | Call.read i => some i
  | _ => none

/-- The frame a call runs the detector on, if it is a detector call. -/
def Call.detected {α : Type} : Call α → Option Nat
  | Call.detect i => some i
  | _ => none

/-- The frame a call displays, if it is `imshow`. -/
def Call.displayed {α : Type} : Call α → Option Nat
  | Call.imshow i => some i
  | _ => none

/-- The detection a call estimates the pose of, if it is `estimate_tag_pose`. -/
def Call.estimated {α : Type} : Call α → Option (Detection α)
  | Call.estimatePose _ det => some det
  | _ => none

/-- The end points of the segment a call draws, if it is `line`. -/
def Call.segment {α : Type} : Call α → Option (Point × Point)
  | Call.line a b _ => some (a, b)
  | _ => none

/-- The text a call renders, if it is `putText`. -/
def Call.text {α : Type} : Call α → Option String
  | Call.putText t _ => some t
  | _ => none

/-- The key checks: `some ()` exactly on a `waitKey` call. -/
def Call.keyCheck {α : Type} : Call α → Option Unit
  | Call.waitKey => some ()
  | _ => none

/-- The five family names the program compares against. -/
def familyNames : List String :=
  ["tag36h11", "tag25h9", "tag16h5", "tagCircle21h7", "tagStandard41h12"]

/-- The name under which the program selects a family. -/
def Family.name : Family → String
  | Family.tag36h11 => "tag36h11"
  | Family.tag25h9 => "tag25h9"
  | Family.tag16h5 => "tag16h5"
  | Family.tagCircle21h7 => "tagCircle21h7"
  | Family.tagStandard41h12 => "tagStandard41h12"

/-- A concrete environment over the rationals: one detection in every frame,
the corners of a square, and simple stand-ins for the numeric library
functions.  Used to evaluate the program on explicit inputs. -/
def sampleEnv (parse help : Bool) (famname : String) (isOpened : Bool)
    (detections : Nat → List (Detection ℚ)) (keys : Nat → Int) : Env ℚ where
  getopt_parse := parse
  help := help
  famname := famname
  isOpened := isOpened
  apriltag_detector_detect := detections
  estimate_tag_pose := fun _ _ => identityPose ℚ
  waitKey := keys
  atan2 := fun y _ => y
  sqrt := fun x => x
  toInt := fun q => Int.tdiv q.num q.den
  getTextSize := fun t => (20 * t.length, 22)

/-- A detection with identifier `7` on the square with corners `(0,0)`,
`(10,0)`, `(10,10)`, `(0,10)`. -/
def squareDetection : Detection ℚ where
  id := 7
  c := ![5, 5]
  p := ![![0, 0], ![10, 0], ![10, 10], ![0, 10]]

/-- A detection with identifier `3` on a skew quadrilateral with corners
`(1.5, 2.25)`, `(31, 4)`, `(33.75, 28)`, `(5, 26.5)`: no two of the eight
coordinates agree, and four of them are not whole pixels (they are given as
reduced fractions: numerator, denominator). -/
def skewDetection : Detection ℚ where
  id := 3
  c := ![18, 15]
  p := ![![⟨3, 2, by decide, by decide⟩, ⟨9, 4, by decide, by decide⟩], ![31, 4],
         ![⟨135, 4, by decide, by decide⟩, 28], ![5, ⟨53, 2, by decide, by decide⟩]]

/-- The key sequence "no key, no key, `q`, ...": `waitKey` returns `-1` until
the third iteration, where it returns the code of `q`. -/
def keysQuitAtTwo (i : Nat) : Int := if i = 2 then 113 else -1

/-! ## Auxiliary facts about `atan2` and the degree scaling -/

theorem atan2_polar (r θ : ℝ) (hr : 0 < r) (hθ : θ ∈ Set.Ioc (-Real.pi) Real.pi) :
    atan2 (r * Real.sin θ) (r * Real.cos θ) = θ := by
  unfold atan2
  have h : (⟨r * Real.cos θ, r * Real.sin θ⟩ : ℂ)
      = (r : ℂ) * (Complex.cos θ + Complex.sin θ * Complex.I) := by
    apply Complex.ext
    · simp [← Complex.ofReal_cos, ← Complex.ofReal_sin]
    · simp [← Complex.ofReal_cos, ← Complex.ofReal_sin]
  rw [h]
  exact Complex.arg_mul_cos_add_sin_mul_I hr hθ

theorem abs_atan2_le_pi (y x : ℝ) : |atan2 y x| ≤ Real.pi :=
  Complex.abs_arg_le_pi _

theorem abs_pi_sub_literal_lt : |Real.pi - 3.1415926| < 6 / 10000000 := by
  have h1 := Real.pi_gt_d6
  have h2 := Real.pi_lt_d6
  rw [abs_lt]
  constructor <;> norm_num at h1 h2 ⊢ <;> linarith

/-- The program's scaling `a / 3.1415926 * 180` of an angle `a` of absolute
value at most `π` is within `1e-4` of the exact conversion `a * (180 / π)`. -/
theorem scale_close_to_degrees (a : ℝ) (ha : |a| ≤ Real.pi) :
    |a / 3.1415926 * 180 - a * (180 / Real.pi)| < 1 / 10000 := by
  have hpi : 0 < Real.pi := Real.pi_pos
  have h3 : Real.pi < 4 := Real.pi_lt_four
  have hd := abs_pi_sub_literal_lt
  have e : a / 3.1415926 * 180 - a * (180 / Real.pi)
      = a / Real.pi * ((Real.pi - 3.1415926) * (180 / 3.1415926)) := by
    field_simp
    ring
  rw [e, abs_mul, abs_mul]
  have h1 : |a / Real.pi| ≤ 1 := by
    rw [abs_div, abs_of_pos hpi]
    exact (div_le_one hpi).mpr ha
  have h2 : |(180 / 3.1415926 : ℝ)| < 58 := by
    rw [abs_of_pos (by norm_num)]
    norm_num
  have h0 : (0 : ℝ) ≤ |Real.pi - 3.1415926| := abs_nonneg _
  have h4 : (0 : ℝ) ≤ |(180 / 3.1415926 : ℝ)| := abs_nonneg _
  have h5 : (0 : ℝ) ≤ |a / Real.pi| := abs_nonneg _
  have h6 : |Real.pi - 3.1415926| * |(180 / 3.1415926 : ℝ)| ≤ 6 / 10000000 * 58 :=
    mul_le_mul hd.le h2.le h4 (by norm_num)
  calc |a / Real.pi| * (|Real.pi - 3.1415926| * |(180 / 3.1415926 : ℝ)|)
      ≤ 1 * (6 / 10000000 * 58) := mul_le_mul h1 h6 (mul_nonneg h0 h4) (by norm_num)
    _ < 1 / 10000 := by norm_num

/-- Converting `x` degrees to radians exactly and back with the program's
scaling moves `x` by less than `1e-3` when `|x| ≤ 180`. -/
theorem scale_round_trip (x : ℝ) (hx : |x| ≤ 180) :
    |x * Real.pi / 180 / 3.1415926 * 180 - x| < 1 / 1000 := by
  have hpi : 0 < Real.pi := Real.pi_pos
  have ha : |x * Real.pi / 180| ≤ Real.pi := by
    rw [abs_div, abs_mul, abs_of_pos hpi, abs_of_pos (by norm_num : (0 : ℝ) < 180)]
    rw [div_le_iff₀ (by norm_num)]
    nlinarith
  have h := scale_close_to_degrees (x * Real.pi / 180) ha
  have e : x * Real.pi / 180 * (180 / Real.pi) = x := by
    field_simp
  rw [e] at h
  linarith

/-! ## Auxiliary facts about the control flow -/

theorem strcmpChars_eq_zero (a b : List Char) : strcmpChars a b = 0 ↔ a = b := by
  induction a generalizing b with
  | nil => cases b <;> simp [strcmpChars]
  | cons x xs ih =>
    cases b with
    | nil => simp [strcmpChars]
    | cons y ys =>
      by_cases h : x = y
      · simp [strcmpChars, h, ih]
      · simp only [strcmpChars, if_neg h]
        split <;> simp [h]

theorem strcmp_eq_zero (a b : String) : strcmp a b = 0 ↔ a = b := by
  unfold strcmp
  rw [strcmpChars_eq_zero]
  exact String.ext_iff.symm

theorem createFamily_eq_some (name : String) (f : Family) :
    createFamily name = some f ↔ name = f.name := by
  unfold createFamily
  simp only [strcmp_eq_zero]
  constructor
  · intro h
    split_ifs at h with h1 h2 h3 h4 h5 <;> cases h <;> simp [Family.name, *]
  · intro h
    subst h
    cases f <;> decide

theorem createFamily_eq_none (name : String) :
    createFamily name = none ↔ name ∉ familyNames := by
  unfold createFamily
  simp only [strcmp_eq_zero, familyNames]
  constructor
  · intro h
    split_ifs at h with h1 h2 h3 h4 h5
    simp [*]
  · intro h
    simp only [List.mem_cons, List.mem_singleton, not_or, List.not_mem_nil, or_false] at h
    simp [h]

theorem destroyFamily_eq_createFamily (name : String) :
    destroyFamily name = createFamily name := by
  unfold destroyFamily createFamily
  rfl

theorem loop_quit {α : Type} [DivisionRing α] (env : Env α) (k : Nat) :
    ∀ (s fuel : Nat), (∀ j, j < k → env.waitKey (s + j) ≠ (Char.toNat 'q' : Int)) →
      env.waitKey (s + k) = (Char.toNat 'q' : Int) → k < fuel →
      loop env fuel s = some ((List.range' s (k + 1)).flatMap (iteration env)) := by
  induction k with
  | zero =>
    intro s fuel _ hq hfuel
    obtain ⟨n, rfl⟩ : ∃ n, fuel = n + 1 := ⟨fuel - 1, by omega⟩
    have hq' : env.waitKey s = (Char.toNat 'q' : Int) := by simpa using hq
    simp [loop, hq', List.range']
  | succ k ih =>
    intro s fuel hne hq hfuel
    obtain ⟨n, rfl⟩ : ∃ n, fuel = n + 1 := ⟨fuel - 1, by omega⟩
    have h0 : env.waitKey s ≠ (Char.toNat 'q' : Int) := by
      simpa using hne 0 (by omega)
    have hrec := ih (s + 1) n
      (fun j hj => by
        have := hne (j + 1) (by omega)
        rwa [show s + (j + 1) = s + 1 + j by omega] at this)
      (by rwa [show s + (k + 1) = s + 1 + k by omega] at hq)
      (by omega)
    rw [loop, if_neg h0, hrec]
    simp [List.range'_succ s (k + 1)]

theorem loop_pending {α : Type} [DivisionRing α] (env : Env α) :
    ∀ (fuel s : Nat), (∀ j, j < fuel → env.waitKey (s + j) ≠ (Char.toNat 'q' : Int)) →
      loop env fuel s = none := by
  intro fuel
  induction fuel with
  | zero => intro s _; rfl
  | succ n ih =>
    intro s hne
    have h0 : env.waitKey s ≠ (Char.toNat 'q' : Int) := by
      simpa using hne 0 (by omega)
    have hrec := ih (s + 1) (fun j hj => by
      have := hne (j + 1) (by omega)
      rwa [show s + (j + 1) = s + 1 + j by omega] at this)
    rw [loop, if_neg h0, hrec]
    rfl

theorem main_run {α : Type} [DivisionRing α] (env : Env α) (f : Family) (k fuel : Nat)
    (hparse : env.getopt_parse = true) (hhelp : env.help = false)
    (hopen : env.isOpened = true) (hfam : createFamily env.famname = some f)
    (hfirst : ∀ j, j < k → env.waitKey j ≠ (Char.toNat 'q' : Int))
    (hq : env.waitKey k = (Char.toNat 'q' : Int)) (hfuel : k < fuel) :
    main env fuel = some ⟨0,
      [Call.getoptCreate, Call.videoCapture, Call.familyCreate f, Call.detectorCreate,
        Call.addFamily f, Call.configure]
      ++ (List.range' 0 (k + 1)).flatMap (iteration env)
      ++ [Call.detectorDestroy, Call.familyDestroy f, Call.getoptDestroy]⟩ := by
  have hl := loop_quit env k 0 fuel (by simpa using hfirst) (by simpa using hq) hfuel
  simp only [main, hparse, hhelp, hopen, hfam, hl, shutdown, destroyFamily_eq_createFamily]
  simp

theorem main_pending {α : Type} [DivisionRing α] (env : Env α) (f : Family) (fuel : Nat)
    (hparse : env.getopt_parse = true) (hhelp : env.help = false)
    (hopen : env.isOpened = true) (hfam : createFamily env.famname = some f)
    (hne : ∀ j, j < fuel → env.waitKey j ≠ (Char.toNat 'q' : Int)) :
    main env fuel = none := by
  have hl := loop_pending env fuel 0 (by simpa using hne)
  simp only [main, hparse, hhelp, hopen, hfam, hl]
  simp

theorem flatMap_singleton_range {β : Type} (l : List Nat) (g : Nat → List β)
    (o : β → Option Nat) (h : ∀ i, (g i).filterMap o = [i]) :
    (l.flatMap g).filterMap o = l := by
  induction l with
  | nil => rfl
  | cons a l ih => simp [List.flatMap_cons, List.filterMap_append, h, ih]

theorem flatMap_filterMap_nil {β γ δ : Type} (l : List β) (g : β → List γ)
    (o : γ → Option δ) (h : ∀ i, (g i).filterMap o = []) :
    (l.flatMap g).filterMap o = [] := by
  induction l with
  | nil => rfl
  | cons a l ih => simp [List.flatMap_cons, List.filterMap_append, h, ih]

theorem annotate_estimated {α : Type} [DivisionRing α] (env : Env α) (det : Detection α) :
    (annotate env det).filterMap Call.estimated = [det] := by
  simp [annotate, outline, label, Call.estimated]

theorem annotate_segment {α : Type} [DivisionRing α] (env : Env α) (det : Detection α) :
    (annotate env det).filterMap Call.segment
      = [(corner env det 0, corner env det 1), (corner env det 0, corner env det 3),
         (corner env det 1, corner env det 2), (corner env det 2, corner env det 3)] := by
  simp [annotate, outline, label, Call.segment]

theorem annotate_text {α : Type} [DivisionRing α] (env : Env α) (det : Detection α) :
    (annotate env det).filterMap Call.text = [toString det.id] := by
  simp [annotate, outline, label, Call.text]

theorem iteration_acquired {α : Type} [DivisionRing α] (env : Env α) (i : Nat) :
    (iteration env i).filterMap Call.acquired = [i] := by
  have h : ∀ l : List (Detection α), (l.flatMap (annotate env)).filterMap Call.acquired = [] :=
    fun l => flatMap_filterMap_nil l _ _ (fun d => by
      simp [annotate, outline, label, Call.acquired])
  simp [iteration, List.filterMap_append, h, Call.acquired]

theorem iteration_detected {α : Type} [DivisionRing α] (env : Env α) (i : Nat) :
    (iteration env i).filterMap Call.detected = [i] := by
  have h : ∀ l : List (Detection α), (l.flatMap (annotate env)).filterMap Call.detected = [] :=
    fun l => flatMap_filterMap_nil l _ _ (fun d => by
      simp [annotate, outline, label, Call.detected])
  simp [iteration, List.filterMap_append, h, Call.detected]

theorem iteration_displayed {α : Type} [DivisionRing α] (env : Env α) (i : Nat) :
    (iteration env i).filterMap Call.displayed = [i] := by
  have h : ∀ l : List (Detection α), (l.flatMap (annotate env)).filterMap Call.displayed = [] :=
    fun l => flatMap_filterMap_nil l _ _ (fun d => by
      simp [annotate, outline, label, Call.displayed])
  simp [iteration, List.filterMap_append, h, Call.displayed]

theorem iteration_created {α : Type} [DivisionRing α] (env : Env α) (i : Nat) :
    (iteration env i).filterMap Call.created = [] := by
  have h : ∀ l : List (Detection α), (l.flatMap (annotate env)).filterMap Call.created = [] :=
    fun l => flatMap_filterMap_nil l _ _ (fun d => by
      simp [annotate, outline, label, Call.created])
  simp [iteration, List.filterMap_append, h, Call.created]

theorem iteration_destroyed {α : Type} [DivisionRing α] (env : Env α) (i : Nat) :
    (iteration env i).filterMap Call.destroyed = [] := by
  have h : ∀ l : List (Detection α), (l.flatMap (annotate env)).filterMap Call.destroyed = [] :=
    fun l => flatMap_filterMap_nil l _ _ (fun d => by
      simp [annotate, outline, label, Call.destroyed])
  simp [iteration, List.filterMap_append, h, Call.destroyed]

theorem iteration_keyCheck {α : Type} [DivisionRing α] (env : Env α) (i : Nat) :
    (iteration env i).filterMap Call.keyCheck = [()] := by
  have h : ∀ l : List (Detection α), (l.flatMap (annotate env)).filterMap Call.keyCheck = [] :=
    fun l => flatMap_filterMap_nil l _ _ (fun d => by
      simp [annotate, outline, label, Call.keyCheck])
  simp [iteration, List.filterMap_append, h, Call.keyCheck]

theorem flatMap_filterMap_length {β γ δ : Type} (l : List β) (g : β → List γ)
    (o : γ → Option δ) (n : Nat) (h : ∀ i, ((g i).filterMap o).length = n) :
    ((l.flatMap g).filterMap o).length = l.length * n := by
  induction l with
  | nil => simp
  | cons a l ih =>
    simp [List.flatMap_cons, List.filterMap_append, h, ih]
    ring

theorem flatMap_filterMap_flatMap {β γ δ : Type} (l : List β) (g : β → List γ)
    (o : γ → Option δ) :
    (l.flatMap g).filterMap o = l.flatMap (fun b => (g b).filterMap o) := by
  induction l with
  | nil => rfl
  | cons a l ih => simp [List.flatMap_cons, List.filterMap_append, ih]

theorem flatMap_singleton_map {β γ : Type} (l : List β) (g : β → γ) :
    l.flatMap (fun b => [g b]) = l.map g := by
  induction l with
  | nil => rfl
  | cons a l ih => simp [List.flatMap_cons, ih]

/-! ## Theorems: relative camera position -/

/-- C1: the relative camera position computed in `main` is the transpose of
the row-major rotation applied to the negated translation,
`result[i] = Σ_j R[j,i] * (-t[j])`; for the identity rotation and
`t = (0,0,1)` it is `(0,0,-1)`. -/
theorem result_eq_transpose_mul_neg :
    (∀ (α : Type) [CommRing α] (pose : Pose α) (i : Fin 3),
        result pose i = ∑ j : Fin 3, pose.entry j i * (-pose.t j)) ∧
    result (identityPose ℝ) = ![0, 0, -1] ∧
    result (identityPose ℚ) = ![0, 0, -1] := by
  refine ⟨?_, ?_, ?_⟩
  · intro α _ pose i
    fin_cases i <;>
      simp [result, matrix, vector, Pose.entry, idx, Matrix.mulVec, Matrix.dotProduct,
        Fin.sum_univ_three] <;> ring
  · ext i
    fin_cases i <;>
      simp [result, matrix, vector, identityPose, matd9, Matrix.mulVec, Matrix.dotProduct,
        Fin.sum_univ_three]
  · ext i
    fin_cases i <;>
      simp [result, matrix, vector, identityPose, matd9, Matrix.mulVec, Matrix.dotProduct,
        Fin.sum_univ_three]

/-- C10: for an orthonormal row-major rotation (`R * Rᵀ = I`) the relative
position `p` computed in `main` is the marker-frame point that the pose maps to
the camera origin, `R * p + t = 0`, and `p` has the Euclidean norm of `t`. -/
theorem result_maps_to_camera_origin (pose : Pose ℝ)
    (orth : ∀ i k : Fin 3,
      ∑ j : Fin 3, pose.entry i j * pose.entry k j = if i = k then 1 else 0) :
    (∀ i : Fin 3, ∑ j : Fin 3, pose.entry i j * result pose j + pose.t i = 0) ∧
    Real.sqrt (∑ i : Fin 3, result pose i ^ 2) = Real.sqrt (∑ i : Fin 3, pose.t i ^ 2) := by
  have h00 := orth 0 0
  have h01 := orth 0 1
  have h02 := orth 0 2
  have h11 := orth 1 1
  have h12 := orth 1 2
  have h22 := orth 2 2
  simp [Pose.entry, idx, Fin.sum_univ_three] at h00 h01 h02 h11 h12 h22
  refine ⟨?_, ?_⟩
  · intro i
    fin_cases i <;>
      simp [result, matrix, vector, Pose.entry, idx, Matrix.mulVec, Matrix.dotProduct,
        Fin.sum_univ_three]
    · linear_combination (-pose.t 0) * h00 - pose.t 1 * h01 - pose.t 2 * h02
    · linear_combination (-pose.t 0) * h01 - pose.t 1 * h11 - pose.t 2 * h12
    · linear_combination (-pose.t 0) * h02 - pose.t 1 * h12 - pose.t 2 * h22
  · congr 1
    simp [result, matrix, vector, Matrix.mulVec, Matrix.dotProduct, Fin.sum_univ_three]
    linear_combination pose.t 0 ^ 2 * h00 + pose.t 1 ^ 2 * h11 + pose.t 2 ^ 2 * h22 +
      2 * pose.t 0 * pose.t 1 * h01 + 2 * pose.t 0 * pose.t 2 * h02 +
      2 * pose.t 1 * pose.t 2 * h12

/-- C10 at the quarter turn: the hypothesis holds there and the conclusion follows. -/
theorem result_maps_to_camera_origin_witness :
    (∀ i k : Fin 3, ∑ j : Fin 3, (quarterTurnPose ℝ).entry i j * (quarterTurnPose ℝ).entry k j
        = if i = k then 1 else 0) ∧
    ((∀ i : Fin 3, ∑ j : Fin 3, (quarterTurnPose ℝ).entry i j * result (quarterTurnPose ℝ) j
        + (quarterTurnPose ℝ).t i = 0) ∧
      Real.sqrt (∑ i : Fin 3, result (quarterTurnPose ℝ) i ^ 2)
        = Real.sqrt (∑ i : Fin 3, (quarterTurnPose ℝ).t i ^ 2)) := by
  have orth : ∀ i k : Fin 3,
      ∑ j : Fin 3, (quarterTurnPose ℝ).entry i j * (quarterTurnPose ℝ).entry k j
        = if i = k then 1 else 0 := by
    intro i k
    fin_cases i <;> fin_cases k <;>
      simp [quarterTurnPose, matd9, Pose.entry, idx, Fin.sum_univ_three]
  exact ⟨orth, result_maps_to_camera_origin (quarterTurnPose ℝ) orth⟩

/-! ## Theorems: Euler angles -/

/-- C3 (as stated) fails: for the quarter turn, `theta_z` is
`(π/2) / 3.1415926 * 180`, which is not `atan2(R[1,0], R[0,0]) * (180/π) = 90`. -/
theorem theta_z_not_exact_degrees :
    atan2 ((quarterTurnPose ℝ).entry 1 0) ((quarterTurnPose ℝ).entry 0 0) = Real.pi / 2 ∧
    theta_z atan2 (quarterTurnPose ℝ)
      ≠ atan2 ((quarterTurnPose ℝ).entry 1 0) ((quarterTurnPose ℝ).entry 0 0)
          * (180 / Real.pi) := by
  have hI : atan2 1 0 = Real.pi / 2 := by
    unfold atan2
    have : (⟨0, 1⟩ : ℂ) = Complex.I := by
      apply Complex.ext <;> simp
    rw [this, Complex.arg_I]
  have hpi : 0 < Real.pi := Real.pi_pos
  have hgt := Real.pi_gt_d20
  refine ⟨by simpa [quarterTurnPose, matd9, Pose.entry, idx] using hI, ?_⟩
  simp only [theta_z, quarterTurnPose, matd9, Pose.entry, idx]
  norm_num [hI]
  intro h
  have h90 : Real.pi / 2 * (180 / Real.pi) = 90 := by
    field_simp
    ring
  rw [h90] at h
  have : Real.pi = 3.1415926 := by
    field_simp at h
    linarith
  norm_num [this] at hgt

/-- C3 (amended): the three angles are the values `atan2(R[2,1], R[2,2])`,
`atan2(-R[2,0], sqrt(R[2,1]^2 + R[2,2]^2))` and `atan2(R[1,0], R[0,0])`, each
divided by the literal `3.1415926` and multiplied by `180`; each is within
`1e-4` of the exact conversion of that value from radians to degrees. -/
theorem theta_eq_scaled_atan2 (pose : Pose ℝ) :
    (theta_x atan2 pose = atan2 (pose.entry 2 1) (pose.entry 2 2) / 3.1415926 * 180 ∧
      theta_y atan2 Real.sqrt pose
        = atan2 (-pose.entry 2 0) (Real.sqrt (pose.entry 2 1 ^ 2 + pose.entry 2 2 ^ 2))
            / 3.1415926 * 180 ∧
      theta_z atan2 pose = atan2 (pose.entry 1 0) (pose.entry 0 0) / 3.1415926 * 180) ∧
    (|theta_x atan2 pose - atan2 (pose.entry 2 1) (pose.entry 2 2) * (180 / Real.pi)|
        < 1 / 10000 ∧
      |theta_y atan2 Real.sqrt pose
          - atan2 (-pose.entry 2 0) (Real.sqrt (pose.entry 2 1 ^ 2 + pose.entry 2 2 ^ 2))
              * (180 / Real.pi)| < 1 / 10000 ∧
      |theta_z atan2 pose - atan2 (pose.entry 1 0) (pose.entry 0 0) * (180 / Real.pi)|
        < 1 / 10000) := by
  have e21 : pose.entry 2 1 = pose.R 7 := rfl
  have e22 : pose.entry 2 2 = pose.R 8 := rfl
  have e20 : pose.entry 2 0 = pose.R 6 := rfl
  have e10 : pose.entry 1 0 = pose.R 3 := rfl
  have e00 : pose.entry 0 0 = pose.R 0 := rfl
  rw [e21, e22, e20, e10, e00]
  exact ⟨⟨rfl, rfl, rfl⟩,
    scale_close_to_degrees _ (abs_atan2_le_pi _ _),
    scale_close_to_degrees _ (abs_atan2_le_pi _ _),
    scale_close_to_degrees _ (abs_atan2_le_pi _ _)⟩

/-- C2: for yaw and roll in `(-180, 180)` degrees and `|pitch| < 90` degrees,
the angles the program computes from `R = Rz(yaw) * Ry(pitch) * Rx(roll)`
recover roll, pitch and yaw within `1e-3` degrees (arithmetic over the reals). -/
theorem euler_round_trip (yaw pitch roll : ℝ) (t : Fin 3 → ℝ)
    (hyaw : -180 < yaw ∧ yaw < 180) (hpitch : |pitch| < 90)
    (hroll : -180 < roll ∧ roll < 180) :
    |theta_x atan2 (eulerPose yaw pitch roll t) - roll| < 1 / 1000 ∧
    |theta_y atan2 Real.sqrt (eulerPose yaw pitch roll t) - pitch| < 1 / 1000 ∧
    |theta_z atan2 (eulerPose yaw pitch roll t) - yaw| < 1 / 1000 := by
  have hpi : 0 < Real.pi := Real.pi_pos
  obtain ⟨hp1, hp2⟩ := abs_lt.mp hpitch
  have hrange : ∀ x : ℝ, -180 < x → x < 180 →
      x * Real.pi / 180 ∈ Set.Ioc (-Real.pi) Real.pi := by
    intro x h1 h2
    constructor
    · rw [lt_div_iff₀ (by norm_num)]
      nlinarith
    · rw [div_le_iff₀ (by norm_num)]
      nlinarith
  have hcos : 0 < Real.cos (pitch * Real.pi / 180) := by
    apply Real.cos_pos_of_mem_Ioo
    constructor
    · rw [lt_div_iff₀ (by norm_num)]
      nlinarith
    · rw [div_lt_iff₀ (by norm_num)]
      nlinarith
  have h7 : (eulerPose yaw pitch roll t).R 7
      = Real.cos (pitch * Real.pi / 180) * Real.sin (roll * Real.pi / 180) := by
    simp [eulerPose, rowMajor, matd9, rotZ, rotY, rotX, Matrix.mul_apply, Fin.sum_univ_three,
      Matrix.vecHead, Matrix.vecTail]
  have h8 : (eulerPose yaw pitch roll t).R 8
      = Real.cos (pitch * Real.pi / 180) * Real.cos (roll * Real.pi / 180) := by
    simp [eulerPose, rowMajor, matd9, rotZ, rotY, rotX, Matrix.mul_apply, Fin.sum_univ_three,
      Matrix.vecHead, Matrix.vecTail]
  have h6 : (eulerPose yaw pitch roll t).R 6 = -Real.sin (pitch * Real.pi / 180) := by
    simp [eulerPose, rowMajor, matd9, rotZ, rotY, rotX, Matrix.mul_apply, Fin.sum_univ_three,
      Matrix.vecHead, Matrix.vecTail]
  have h3 : (eulerPose yaw pitch roll t).R 3
      = Real.cos (pitch * Real.pi / 180) * Real.sin (yaw * Real.pi / 180) := by
    simp [eulerPose, rowMajor, matd9, rotZ, rotY, rotX, Matrix.mul_apply, Fin.sum_univ_three,
      Matrix.vecHead, Matrix.vecTail]
    ring
  have h0 : (eulerPose yaw pitch roll t).R 0
      = Real.cos (pitch * Real.pi / 180) * Real.cos (yaw * Real.pi / 180) := by
    simp [eulerPose, rowMajor, matd9, rotZ, rotY, rotX, Matrix.mul_apply, Fin.sum_univ_three,
      Matrix.vecHead, Matrix.vecTail]
    ring
  have hsq : Real.sqrt ((Real.cos (pitch * Real.pi / 180) * Real.sin (roll * Real.pi / 180)) ^ 2
      + (Real.cos (pitch * Real.pi / 180) * Real.cos (roll * Real.pi / 180)) ^ 2)
      = 1 * Real.cos (pitch * Real.pi / 180) := by
    have : (Real.cos (pitch * Real.pi / 180) * Real.sin (roll * Real.pi / 180)) ^ 2
        + (Real.cos (pitch * Real.pi / 180) * Real.cos (roll * Real.pi / 180)) ^ 2
        = Real.cos (pitch * Real.pi / 180) ^ 2 := by
      have := Real.sin_sq_add_cos_sq (roll * Real.pi / 180)
      linear_combination Real.cos (pitch * Real.pi / 180) ^ 2 * this
    rw [this, Real.sqrt_sq hcos.le, one_mul]
  have hneg : -(-Real.sin (pitch * Real.pi / 180)) = 1 * Real.sin (pitch * Real.pi / 180) := by
    ring
  refine ⟨?_, ?_, ?_⟩
  · rw [theta_x, h7, h8, atan2_polar _ _ hcos (hrange roll hroll.1 hroll.2)]
    exact scale_round_trip roll (abs_le.mpr ⟨hroll.1.le, hroll.2.le⟩)
  · rw [theta_y, h6, h7, h8, hsq, hneg,
      atan2_polar _ _ one_pos (hrange pitch (by linarith) (by linarith))]
    exact scale_round_trip pitch (abs_le.mpr ⟨by linarith, by linarith⟩)
  · rw [theta_z, h3, h0, atan2_polar _ _ hcos (hrange yaw hyaw.1 hyaw.2)]
    exact scale_round_trip yaw (abs_le.mpr ⟨hyaw.1.le, hyaw.2.le⟩)

/-- C2 at yaw = 30, pitch = 10, roll = 5 degrees. -/
theorem euler_round_trip_witness :
    ((-180 : ℝ) < 30 ∧ (30 : ℝ) < 180) ∧ |(10 : ℝ)| < 90 ∧ ((-180 : ℝ) < 5 ∧ (5 : ℝ) < 180) ∧
    |theta_x atan2 (eulerPose 30 10 5 ![0, 0, 1]) - 5| < 1 / 1000 ∧
    |theta_y atan2 Real.sqrt (eulerPose 30 10 5 ![0, 0, 1]) - 10| < 1 / 1000 ∧
    |theta_z atan2 (eulerPose 30 10 5 ![0, 0, 1]) - 30| < 1 / 1000 :=
  ⟨by norm_num, by norm_num [abs_lt], by norm_num,
    euler_round_trip 30 10 5 ![0, 0, 1] (by norm_num) (by norm_num [abs_lt]) (by norm_num)⟩

/-! ## Theorems: start-up, loop and tear-down -/

/-- C9: once option parsing succeeded without a help request, the frame source
opened and the family was recognised, the loop runs until the first `q`: if
the first `q` is returned in iteration `k` (0-based), the loop has not ended
after `k` or fewer iterations, and with more than `k` iterations allowed the
program returns `0` having acquired, detected on and displayed exactly the
frames `0, ..., k` and having checked the key `k + 1` times. -/
theorem main_runs_until_quit {α : Type} [DivisionRing α] (env : Env α) (f : Family) (k : Nat)
    (hparse : env.getopt_parse = true) (hhelp : env.help = false)
    (hopen : env.isOpened = true) (hfam : createFamily env.famname = some f)
    (hfirst : ∀ j, j < k → env.waitKey j ≠ (Char.toNat 'q' : Int))
    (hq : env.waitKey k = (Char.toNat 'q' : Int)) :
    (∀ fuel, fuel ≤ k → main env fuel = none) ∧
    (∀ fuel, k < fuel → ∃ out, main env fuel = some out ∧ out.code = 0 ∧
      out.calls.filterMap Call.acquired = List.range (k + 1) ∧
      out.calls.filterMap Call.detected = List.range (k + 1) ∧
      out.calls.filterMap Call.displayed = List.range (k + 1) ∧
      (out.calls.filterMap Call.keyCheck).length = k + 1) := by
  constructor
  · intro fuel hfuel
    exact main_pending env f fuel hparse hhelp hopen hfam
      (fun j hj => hfirst j (by omega))
  · intro fuel hfuel
    refine ⟨_, main_run env f k fuel hparse hhelp hopen hfam hfirst hq hfuel, rfl, ?_, ?_, ?_, ?_⟩
    · simp [List.filterMap_append, Call.acquired, List.range_eq_range',
        flatMap_singleton_range _ _ _ (iteration_acquired env)]
    · simp [List.filterMap_append, Call.detected, List.range_eq_range',
        flatMap_singleton_range _ _ _ (iteration_detected env)]
    · simp [List.filterMap_append, Call.displayed, List.range_eq_range',
        flatMap_singleton_range _ _ _ (iteration_displayed env)]
    · simp [List.filterMap_append, Call.keyCheck,
        flatMap_filterMap_length _ _ _ 1 (fun i => by rw [iteration_keyCheck env i]; rfl)]

/-- C9 on the key sequence "no key, no key, `q`": three frames are processed. -/
theorem main_runs_until_quit_witness :
    (∀ fuel, fuel ≤ 2 →
      main (sampleEnv true false "tag36h11" true (fun _ => [squareDetection]) keysQuitAtTwo) fuel
        = none) ∧
    (∀ fuel, 2 < fuel → ∃ out,
      main (sampleEnv true false "tag36h11" true (fun _ => [squareDetection]) keysQuitAtTwo) fuel
        = some out ∧ out.code = 0 ∧
      out.calls.filterMap Call.acquired = List.range (2 + 1) ∧
      out.calls.filterMap Call.detected = List.range (2 + 1) ∧
      out.calls.filterMap Call.displayed = List.range (2 + 1) ∧
      (out.calls.filterMap Call.keyCheck).length = 2 + 1) :=
  main_runs_until_quit
    (sampleEnv true false "tag36h11" true (fun _ => [squareDetection]) keysQuitAtTwo)
    Family.tag36h11 2 rfl rfl rfl (by decide)
    (by intro j hj; interval_cases j <;> decide) (by decide)

/-- C7: in a run that reaches tear-down, exactly one family object is created
and exactly one destroyed, by the create and destroy functions of the same
family, the one named by the `family` option; each of the five names selects
its own pair; and a name is accepted if and only if it is one of the five
strings, compared exactly (so `TAG36H11` is not accepted). -/
theorem family_destroy_matches_create {α : Type} [DivisionRing α] (env : Env α) (f : Family)
    (k fuel : Nat)
    (hparse : env.getopt_parse = true) (hhelp : env.help = false)
    (hopen : env.isOpened = true) (hfam : createFamily env.famname = some f)
    (hfirst : ∀ j, j < k → env.waitKey j ≠ (Char.toNat 'q' : Int))
    (hq : env.waitKey k = (Char.toNat 'q' : Int)) (hfuel : k < fuel) :
    (∃ out, main env fuel = some out ∧
      out.calls.filterMap Call.created = [f] ∧
      out.calls.filterMap Call.destroyed = [f]) ∧
    env.famname = f.name ∧
    (∀ g : Family, createFamily g.name = some g ∧ destroyFamily g.name = some g) ∧
    (∀ name : String, (createFamily name).isSome = true ↔ name ∈ familyNames) ∧
    createFamily "TAG36H11" = none := by
  refine ⟨⟨_, main_run env f k fuel hparse hhelp hopen hfam hfirst hq hfuel, ?_, ?_⟩,
    (createFamily_eq_some _ _).mp hfam, ?_, ?_, by decide⟩
  · simp [List.filterMap_append, Call.created,
      flatMap_filterMap_nil _ _ _ (iteration_created env)]
  · simp [List.filterMap_append, Call.destroyed,
      flatMap_filterMap_nil _ _ _ (iteration_destroyed env)]
  · intro g
    cases g <;> exact ⟨by decide, by decide⟩
  · intro name
    rw [← not_iff_not, ← createFamily_eq_none]
    cases createFamily name <;> simp

/-- C7 for the family `tagCircle21h7` and a run that quits in the third iteration. -/
theorem family_destroy_matches_create_witness :
    (∃ out,
      main (sampleEnv true false "tagCircle21h7" true (fun _ => []) keysQuitAtTwo) 3 = some out ∧
      out.calls.filterMap Call.created = [Family.tagCircle21h7] ∧
      out.calls.filterMap Call.destroyed = [Family.tagCircle21h7]) :=
  (family_destroy_matches_create
    (sampleEnv true false "tagCircle21h7" true (fun _ => []) keysQuitAtTwo)
    Family.tagCircle21h7 2 3 rfl rfl rfl (by decide)
    (by intro j hj; interval_cases j <;> decide) (by decide) (by decide)).1

/-- C4 (as stated) fails: with the family name `bogusfamily`, parsing
successful and no help request, a run with a working camera opens the frame
source once before it exits with `-1`, and a run without a camera exits with
`-1` without printing the unrecognized-family message. -/
theorem bogus_family_opens_frame_source :
    (main (sampleEnv true false "bogusfamily" true (fun _ => []) keysQuitAtTwo) 0).map
        (fun o => (o.code, o.calls.countP Call.isVideoCapture,
          o.calls.countP Call.isUnrecognizedFamily)) = some (-1, 1, 1) ∧
    (main (sampleEnv true false "bogusfamily" false (fun _ => []) keysQuitAtTwo) 0).map
        (fun o => (o.code, o.calls.countP Call.isVideoCapture,
          o.calls.countP Call.isUnrecognizedFamily)) = some (-1, 1, 0) := by
  constructor <;> decide

/-- C4 (amended): for a family name that is not one of the five, with parsing
successful and no help request, the program exits with `-1` after one attempt
to open the frame source and before any family, detector or frame is used; it
prints the unrecognized-family message when the source opened, and the
capture-failure message when it did not. -/
theorem unrecognized_family_exit {α : Type} [DivisionRing α] (env : Env α) (fuel : Nat)
    (hparse : env.getopt_parse = true) (hhelp : env.help = false)
    (hname : env.famname ∉ familyNames) :
    (env.isOpened = true → main env fuel
      = some ⟨-1, [Call.getoptCreate, Call.videoCapture, Call.unrecognizedFamily]⟩) ∧
    (env.isOpened = false → main env fuel
      = some ⟨-1, [Call.getoptCreate, Call.videoCapture, Call.captureError]⟩) := by
  have hnone := (createFamily_eq_none env.famname).mpr hname
  constructor
  · intro hopen
    simp [main, hparse, hhelp, hopen, hnone]
  · intro hopen
    simp [main, hparse, hhelp, hopen]

/-- C4 (amended) at the name `bogusfamily`, with and without a camera. -/
theorem unrecognized_family_exit_witness :
    main (sampleEnv true false "bogusfamily" true (fun _ => []) keysQuitAtTwo) 5
      = some ⟨-1, [Call.getoptCreate, Call.videoCapture, Call.unrecognizedFamily]⟩ ∧
    main (sampleEnv true false "bogusfamily" false (fun _ => []) keysQuitAtTwo) 5
      = some ⟨-1, [Call.getoptCreate, Call.videoCapture, Call.captureError]⟩ :=
  ⟨(unrecognized_family_exit
      (sampleEnv true false "bogusfamily" true (fun _ => []) keysQuitAtTwo) 5
      rfl rfl (by decide)).1 rfl,
   (unrecognized_family_exit
      (sampleEnv true false "bogusfamily" false (fun _ => []) keysQuitAtTwo) 5
      rfl rfl (by decide)).2 rfl⟩

/-- C5 (as stated) fails: when option parsing fails, help is not requested and
the frame source cannot be opened, the exit code is `0`, not `-1`. -/
theorem parse_failure_exits_zero :
    (sampleEnv false false "bogusfamily" false (fun _ => []) keysQuitAtTwo).help = false ∧
    (sampleEnv false false "bogusfamily" false (fun _ => []) keysQuitAtTwo).isOpened = false ∧
    createFamily (sampleEnv false false "bogusfamily" false (fun _ => []) keysQuitAtTwo).famname
      = none ∧
    (main (sampleEnv false false "bogusfamily" false (fun _ => []) keysQuitAtTwo) 0).map
      Outcome.code = some 0 := by
  refine ⟨rfl, rfl, ?_, ?_⟩ <;> decide

/-- C5 (amended): the exit code is `0` when the usage text is shown (option
parsing fails or help is requested) and `0` when the loop ends on the quit
key; it is `-1` when parsing succeeds, help is not requested and the frame
source cannot be opened, and `-1` when parsing succeeds, help is not requested
and the family name is not one of the five; no other exit code is produced. -/
theorem exit_code_cases {α : Type} [DivisionRing α] (env : Env α) :
    ((env.getopt_parse = false ∨ env.help = true) →
      ∀ fuel, (main env fuel).map Outcome.code = some 0) ∧
    (env.getopt_parse = true → env.help = false → env.isOpened = true →
      env.famname ∈ familyNames →
      ∀ k, (∀ j, j < k → env.waitKey j ≠ (Char.toNat 'q' : Int)) →
        env.waitKey k = (Char.toNat 'q' : Int) →
        ∀ fuel, k < fuel → (main env fuel).map Outcome.code = some 0) ∧
    (env.getopt_parse = true → env.help = false → env.isOpened = false →
      ∀ fuel, (main env fuel).map Outcome.code = some (-1)) ∧
    (env.getopt_parse = true → env.help = false → env.famname ∉ familyNames →
      ∀ fuel, (main env fuel).map Outcome.code = some (-1)) ∧
    (∀ fuel out, main env fuel = some out → out.code = 0 ∨ out.code = -1) := by
  refine ⟨?_, ?_, ?_, ?_, ?_⟩
  · rintro (h | h) fuel
    · simp [main, h]
    · simp [main, h]
  · intro hparse hhelp hopen hname k hfirst hq fuel hfuel
    obtain ⟨f, hf⟩ : ∃ f, createFamily env.famname = some f := by
      cases h : createFamily env.famname with
      | none => exact absurd hname ((createFamily_eq_none _).mp h)
      | some f => exact ⟨f, rfl⟩
    rw [main_run env f k fuel hparse hhelp hopen hf hfirst hq hfuel]
    rfl
  · intro hparse hhelp hopen fuel
    simp [main, hparse, hhelp, hopen]
  · intro hparse hhelp hname fuel
    cases hopen : env.isOpened
    · simp [main, hparse, hhelp, hopen]
    · simp [main, hparse, hhelp, hopen, (createFamily_eq_none env.famname).mpr hname]
  · intro fuel out h
    unfold main at h
    split_ifs at h with h1 h2
    · cases h
      exact Or.inl rfl
    · cases h
      exact Or.inr rfl
    · split at h
      · cases h
        exact Or.inr rfl
      · split at h
        · cases h
        · cases h
          exact Or.inl rfl

/-- C5 (amended) on five concrete runs, one for each case. -/
theorem exit_code_cases_witness :
    (main (sampleEnv true true "tag36h11" true (fun _ => []) keysQuitAtTwo) 0).map Outcome.code
      = some 0 ∧
    (main (sampleEnv false false "tag36h11" true (fun _ => []) keysQuitAtTwo) 0).map Outcome.code
      = some 0 ∧
    (main (sampleEnv true false "tag36h11" true (fun _ => []) keysQuitAtTwo) 3).map Outcome.code
      = some 0 ∧
    (main (sampleEnv true false "tag36h11" false (fun _ => []) keysQuitAtTwo) 3).map Outcome.code
      = some (-1) ∧
    (main (sampleEnv true false "bogusfamily" true (fun _ => []) keysQuitAtTwo) 3).map
      Outcome.code = some (-1) :=
  ⟨(exit_code_cases (sampleEnv true true "tag36h11" true (fun _ => []) keysQuitAtTwo)).1
      (Or.inr rfl) 0,
   (exit_code_cases (sampleEnv false false "tag36h11" true (fun _ => []) keysQuitAtTwo)).1
      (Or.inl rfl) 0,
   (exit_code_cases (sampleEnv true false "tag36h11" true (fun _ => []) keysQuitAtTwo)).2.1
      rfl rfl rfl (by decide) 2 (by intro j hj; interval_cases j <;> decide) (by decide) 3
      (by decide),
   (exit_code_cases (sampleEnv true false "tag36h11" false (fun _ => []) keysQuitAtTwo)).2.2.1
      rfl rfl rfl 3,
   (exit_code_cases (sampleEnv true false "bogusfamily" true (fun _ => []) keysQuitAtTwo)).2.2.2.1
      rfl rfl (by decide) 3⟩

/-- C6: in one loop iteration the pose estimator is called on exactly the
detections the detector returned, one call each and in order, so `n`
detections give `n` pose estimations; each detection is annotated with four
line segments and one label carrying its identifier, so there are `4 * n`
segments and `n` labels; every iteration ends by releasing the detections,
displaying the frame and checking the key; with no detection the iteration
consists of acquisition, detection, display and key check only. -/
theorem iteration_per_detection {α : Type} [DivisionRing α] (env : Env α) (i : Nat) :
    (iteration env i).filterMap Call.estimated = env.apriltag_detector_detect i ∧
    ((iteration env i).filterMap Call.estimated).length
      = (env.apriltag_detector_detect i).length ∧
    ((iteration env i).filterMap Call.segment).length
      = 4 * (env.apriltag_detector_detect i).length ∧
    (iteration env i).filterMap Call.text
      = (env.apriltag_detector_detect i).map (fun det => toString det.id) ∧
    (∀ det : Detection α,
      (annotate env det).filterMap Call.estimated = [det] ∧
      ((annotate env det).filterMap Call.segment).length = 4 ∧
      (annotate env det).filterMap Call.text = [toString det.id]) ∧
    (∃ before, iteration env i
      = before ++ [Call.zarrayDestroy, Call.imshow i, Call.printTime, Call.waitKey]) ∧
    (env.apriltag_detector_detect i = [] →
      iteration env i
        = [Call.read i, Call.cvtColor i, Call.detect i, Call.printCount 0,
           Call.zarrayDestroy, Call.imshow i, Call.printTime, Call.waitKey]) := by
  have hest : (iteration env i).filterMap Call.estimated = env.apriltag_detector_detect i := by
    simp only [iteration, List.filterMap_append, flatMap_filterMap_flatMap,
      annotate_estimated]
    simp [Call.estimated, List.flatMap_singleton']
  have hseg : ((iteration env i).filterMap Call.segment).length
      = 4 * (env.apriltag_detector_detect i).length := by
    simp only [iteration, List.filterMap_append, List.length_append,
      flatMap_filterMap_length _ _ _ 4 (fun det => by rw [annotate_segment env det]; rfl)]
    simp [Call.segment]
    ring
  have htext : (iteration env i).filterMap Call.text
      = (env.apriltag_detector_detect i).map (fun det => toString det.id) := by
    simp only [iteration, List.filterMap_append, flatMap_filterMap_flatMap, annotate_text]
    simp [Call.text, flatMap_singleton_map]
  refine ⟨hest, by rw [hest], hseg, htext, ?_, ⟨_, rfl⟩, ?_⟩
  · intro det
    exact ⟨annotate_estimated env det, by rw [annotate_segment env det]; rfl,
      annotate_text env det⟩
  · intro h
    simp [iteration, h]

/-- C6 on a frame with no detection and on a frame with two detections. -/
theorem iteration_per_detection_witness :
    iteration (sampleEnv true false "tag36h11" true (fun _ => []) keysQuitAtTwo) 0
      = [Call.read 0, Call.cvtColor 0, Call.detect 0, Call.printCount 0,
         Call.zarrayDestroy, Call.imshow 0, Call.printTime, Call.waitKey] ∧
    ((iteration (sampleEnv true false "tag36h11" true
        (fun _ => [squareDetection, squareDetection]) keysQuitAtTwo) 0).filterMap
        Call.segment).length = 4 * 2 :=
  ⟨(iteration_per_detection
      (sampleEnv true false "tag36h11" true (fun _ => []) keysQuitAtTwo) 0).2.2.2.2.2.2 rfl,
   (iteration_per_detection
      (sampleEnv true false "tag36h11" true
        (fun _ => [squareDetection, squareDetection]) keysQuitAtTwo) 0).2.2.1⟩

/-- C8: the four `line` calls join the corner pairs `{p0,p1}`, `{p1,p2}`,
`{p2,p3}`, `{p3,p0}`, each once: every segment joins cyclically consecutive
corners, every corner is the end point of exactly two segments, no diagonal
and no degenerate segment is drawn; and for every detection `det` the
segments drawn are, as unordered pairs of pixel positions, the four sides of
the quadrilateral whose corner `k` is `det->p[k][0]`, `det->p[k][1]` converted
to `int` (x first, y second), drawn in the order `p0p1`, `p0p3`, `p1p2`,
`p2p3`. -/
theorem outline_is_quadrilateral :
    (outline.map (fun e => s(e.1, e.2.1)) : Multiset (Sym2 (Fin 4)))
      = {s(0, 1), s(1, 2), s(2, 3), s(3, 0)} ∧
    (∀ e ∈ outline, e.2.1 = e.1 + 1 ∨ e.1 = e.2.1 + 1) ∧
    (∀ k : Fin 4, outline.countP (fun e => e.1 = k || e.2.1 = k) = 2) ∧
    (∀ e ∈ outline, e.2.1 ≠ e.1 + 2 ∧ e.2.1 ≠ e.1) ∧
    (∀ (α : Type) [DivisionRing α] (env : Env α) (det : Detection α),
      (((annotate env det).filterMap Call.segment).map (fun ab => s(ab.1, ab.2))
          : Multiset (Sym2 Point))
        = {s((⟨env.toInt (det.p 0 0), env.toInt (det.p 0 1)⟩ : Point),
             ⟨env.toInt (det.p 1 0), env.toInt (det.p 1 1)⟩),
           s((⟨env.toInt (det.p 1 0), env.toInt (det.p 1 1)⟩ : Point),
             ⟨env.toInt (det.p 2 0), env.toInt (det.p 2 1)⟩),
           s((⟨env.toInt (det.p 2 0), env.toInt (det.p 2 1)⟩ : Point),
             ⟨env.toInt (det.p 3 0), env.toInt (det.p 3 1)⟩),
           s((⟨env.toInt (det.p 3 0), env.toInt (det.p 3 1)⟩ : Point),
             ⟨env.toInt (det.p 0 0), env.toInt (det.p 0 1)⟩)} ∧
      (annotate env det).filterMap Call.segment
        = [((⟨env.toInt (det.p 0 0), env.toInt (det.p 0 1)⟩ : Point),
             (⟨env.toInt (det.p 1 0), env.toInt (det.p 1 1)⟩ : Point)),
           (⟨env.toInt (det.p 0 0), env.toInt (det.p 0 1)⟩,
             ⟨env.toInt (det.p 3 0), env.toInt (det.p 3 1)⟩),
           (⟨env.toInt (det.p 1 0), env.toInt (det.p 1 1)⟩,
             ⟨env.toInt (det.p 2 0), env.toInt (det.p 2 1)⟩),
           (⟨env.toInt (det.p 2 0), env.toInt (det.p 2 1)⟩,
             ⟨env.toInt (det.p 3 0), env.toInt (det.p 3 1)⟩)]) := by
  refine ⟨by decide, by decide, by decide, by decide, ?_⟩
  intro α _ env det
  have hseg := annotate_segment env det
  simp only [corner] at hseg
  refine ⟨?_, hseg⟩
  rw [hseg]
  simp only [List.map_cons, List.map_nil]
  rw [Sym2.eq_swap (a := (⟨env.toInt (det.p 3 0), env.toInt (det.p 3 1)⟩ : Point))
    (b := (⟨env.toInt (det.p 0 0), env.toInt (det.p 0 1)⟩ : Point))]
  simp only [Multiset.insert_eq_cons, ← Multiset.cons_coe, Multiset.coe_nil]
  rw [Multiset.cons_swap
    (s((⟨env.toInt (det.p 0 0), env.toInt (det.p 0 1)⟩ : Point),
      ⟨env.toInt (det.p 3 0), env.toInt (det.p 3 1)⟩))
    (s((⟨env.toInt (det.p 1 0), env.toInt (det.p 1 1)⟩ : Point),
      ⟨env.toInt (det.p 2 0), env.toInt (det.p 2 1)⟩))]
  congr 2
  rw [Multiset.cons_swap
    (s((⟨env.toInt (det.p 0 0), env.toInt (det.p 0 1)⟩ : Point),
      ⟨env.toInt (det.p 3 0), env.toInt (det.p 3 1)⟩))
    (s((⟨env.toInt (det.p 2 0), env.toInt (det.p 2 1)⟩ : Point),
      ⟨env.toInt (det.p 3 0), env.toInt (det.p 3 1)⟩))]
  rfl

/-- C8 on the skew detection, whose eight corner coordinates are pairwise
different: the segments drawn are `(1,2)-(31,4)`, `(1,2)-(5,26)`,
`(31,4)-(33,28)` and `(33,28)-(5,26)`, in that order. -/
theorem outline_is_quadrilateral_witness :
    (annotate (sampleEnv true false "tag36h11" true (fun _ => []) keysQuitAtTwo)
        skewDetection).filterMap Call.segment
      = [((⟨1, 2⟩ : Point), (⟨31, 4⟩ : Point)), (⟨1, 2⟩, ⟨5, 26⟩),
         (⟨31, 4⟩, ⟨33, 28⟩), (⟨33, 28⟩, ⟨5, 26⟩)] :=
  (outline_is_quadrilateral.2.2.2.2 ℚ
    (sampleEnv true false "tag36h11" true (fun _ => []) keysQuitAtTwo) skewDetection).2

end OpencvDemo
